import Mathlib

/-!
Verification of the core logic of `async_stack_tracer.py`: the stealth/panic
timing state machine (`StealthManager`) and the falling-block game engine
(`TetrisGame`).  Python floats used for timestamps and intervals are modelled
as rationals; Python ints as `Int`/`Nat`; the injected random piece source is
modelled as an explicit stream of piece kinds.
-/

namespace AsyncStackTracer

/-! ## StealthManager -/

structure StealthState where
  hidden : Bool
  awaiting_double : Bool
  last_enter_time : ℚ
deriving DecidableEq

def DOUBLE_WINDOW : ℚ := 4 / 10

inductive StealthAction where
  | hide
  | panic
  | restore
deriving DecidableEq

/-- `StealthManager.handle_enter`, with the sampled `time.time()` passed in
explicitly as `now`.  Returns the successor state and the emitted action. -/
def handle_enter (s : StealthState) (now : ℚ) : StealthState × StealthAction :=
  if s.hidden = false then
    if s.awaiting_double = false then
      ({ hidden := true, awaiting_double := true, last_enter_time := now },
        StealthAction.hide)
    else
      ({ s with awaiting_double := false }, StealthAction.panic)
  else
    if s.awaiting_double = true ∧ now - s.last_enter_time ≤ DOUBLE_WINDOW then
      ({ s with awaiting_double := false }, StealthAction.panic)
    else
      ({ s with hidden := false, awaiting_double := false }, StealthAction.restore)

/-- `StealthManager.check_timers`, with `time.time()` passed in as `now`. -/
def check_timers (s : StealthState) (now : ℚ) : StealthState :=
  if s.awaiting_double = true then
    if now - s.last_enter_time > DOUBLE_WINDOW then
      { s with awaiting_double := false }
    else s
  else s

/-- `StealthManager.__init__`: hidden and awaiting flags start false,
the stored timestamp starts at `0.0`. -/
def stealth_init : StealthState :=
  { hidden := false, awaiting_double := false, last_enter_time := 0 }

/-- An externally observable event fed to the stealth manager: an Enter key
press (`trigger`) or a periodic timer poll (`tick`), each carrying the
wall-clock time at which it is processed. -/
inductive StealthEvent where
  | trigger (now : ℚ)
  | tick (now : ℚ)

def stealth_apply (s : StealthState) : StealthEvent → StealthState
  | StealthEvent.trigger now => (handle_enter s now).1
  | StealthEvent.tick now => check_timers s now

/-- The state reached from the initial state after a sequence of events. -/
def stealth_run (evs : List StealthEvent) : StealthState :=
  evs.foldl stealth_apply stealth_init

/-! ## TetrisGame: data model -/

def WIDTH : Nat := 10

def HEIGHT : Nat := 20

/-- A grid cell holds the Python int stored in `self.grid[y][x]` (`0` empty,
`1` occupied); a grid is the outer list of rows. -/
abbrev Grid := List (List Nat)

inductive Kind where
  | I
  | O
  | T
  | L
  | J
  | S
  | Z
deriving DecidableEq

/-- `TetrisGame.SHAPES`: each kind's ordered list of rotation states, each a
list of `(x, y)` offsets. -/
def SHAPES : Kind → List (List (Int × Int))
  | Kind.I => [[(0,1),(1,1),(2,1),(3,1)],
               [(2,0),(2,1),(2,2),(2,3)]]
  | Kind.O => [[(1,0),(2,0),(1,1),(2,1)]]
  | Kind.T => [[(1,0),(0,1),(1,1),(2,1)],
               [(1,0),(1,1),(2,1),(1,2)],
               [(0,1),(1,1),(2,1),(1,2)],
               [(1,0),(0,1),(1,1),(1,2)]]
  | Kind.L => [[(2,0),(0,1),(1,1),(2,1)],
               [(1,0),(1,1),(1,2),(2,2)],
               [(0,1),(1,1),(2,1),(0,2)],
               [(0,0),(1,0),(1,1),(1,2)]]
  | Kind.J => [[(0,0),(0,1),(1,1),(2,1)],
               [(1,0),(2,0),(1,1),(1,2)],
               [(0,1),(1,1),(2,1),(2,2)],
               [(1,0),(1,1),(0,2),(1,2)]]
  | Kind.S => [[(1,0),(2,0),(0,1),(1,1)],
               [(1,0),(1,1),(2,1),(2,2)]]
  | Kind.Z => [[(0,0),(1,0),(1,1),(2,1)],
               [(2,0),(1,1),(2,1),(1,2)]]

structure Piece where
  kind : Kind
  rot : Nat
deriving DecidableEq

/-- `TetrisGame._random_piece` with the random choice injected: rotation
index starts at `0`. -/
def mk_piece (k : Kind) : Piece := { kind := k, rot := 0 }

structure GameState where
  grid : Grid
  score : Int
  level : Int
  lines : Int
  current : Piece
  next_piece : Piece
  px : Int
  py : Int
  drop_interval : ℚ
  last_drop : ℚ
  lock_delay : ℚ
  soft_drop : Bool
deriving DecidableEq

def empty_row : List Nat := List.replicate WIDTH 0

def empty_grid : Grid := List.replicate HEIGHT empty_row

/-- `TetrisGame._shape_coords`: the rotation state at `rot_idx mod count`,
translated by the anchor `(px, py)`. -/
def shape_coords (p : Piece) (rot_idx : Nat) (px py : Int) : List (Int × Int) :=
  ((SHAPES p.kind).getD (rot_idx % (SHAPES p.kind).length) []).map
    (fun c => (c.1 + px, c.2 + py))

/-- One cell's part of `TetrisGame._valid_position`: in horizontal and
vertical bounds and not already occupied. -/
def cell_free (grid : Grid) (c : Int × Int) : Bool :=
  decide (0 ≤ c.1) && decide (c.1 < (WIDTH : Int)) &&
    decide (0 ≤ c.2) && decide (c.2 < (HEIGHT : Int)) &&
    ((grid.getD c.2.toNat []).getD c.1.toNat 0 == 0)

/-- `TetrisGame._valid_position` for the given piece at anchor `(px, py)`
and rotation index `rot_idx`. -/
def valid_position (grid : Grid) (p : Piece) (px py : Int) (rot_idx : Nat) : Bool :=
  (shape_coords p rot_idx px py).all (cell_free grid)

/-! ## TetrisGame: operations -/

/-- `TetrisGame.rotate`: try `(rot + 1) mod stateCount`, apply only if the
rotated placement is valid. -/
def rotate (g : GameState) : GameState :=
  let new_rot := (g.current.rot + 1) % (SHAPES g.current.kind).length
  if valid_position g.grid g.current g.px g.py new_rot then
    { g with current := { g.current with rot := new_rot } }
  else g

/-- `TetrisGame.move`: try anchor `px + dx`, apply only if valid. -/
def move (g : GameState) (dx : Int) : GameState :=
  let nx := g.px + dx
  if valid_position g.grid g.current nx g.py g.current.rot then
    { g with px := nx }
  else g

/-- One iteration of the merge loop in `TetrisGame.lock_piece`: set
`grid[y][x] = 1` when `0 <= y < HEIGHT` and `0 <= x < WIDTH`. -/
def set_cell (grid : Grid) (x y : Int) : Grid :=
  if 0 ≤ y ∧ y < (HEIGHT : Int) ∧ 0 ≤ x ∧ x < (WIDTH : Int) then
    grid.set y.toNat ((grid.getD y.toNat []).set x.toNat 1)
  else grid

/-- The merge loop of `TetrisGame.lock_piece`: mark every listed cell. -/
def merge (grid : Grid) (cells : List (Int × Int)) : Grid :=
  cells.foldl (fun g c => set_cell g c.1 c.2) grid

/-- A row survives `clear_lines` iff it has an empty cell
(`any(cell == 0 for cell in row)`). -/
def is_incomplete (row : List Nat) : Bool := row.any (fun cell => cell == 0)

/-- `TetrisGame.clear_lines`: keep incomplete rows, count the removed ones as
`HEIGHT - len(new_grid)`, and insert that many empty rows at the top.
Returns the new grid and the count. -/
def clear_lines (grid : Grid) : Grid × Int :=
  let new_grid := grid.filter is_incomplete
  let cleared : Int := (HEIGHT : Int) - new_grid.length
  (List.replicate cleared.toNat empty_row ++ new_grid, cleared)

/-- The scoring dict lookup `{0:0,1:100,2:300,3:500,4:800}.get(cleared, 0)`. -/
def score_table (cleared : Int) : Int :=
  if cleared = 0 then 0
  else if cleared = 1 then 100
  else if cleared = 2 then 300
  else if cleared = 3 then 500
  else if cleared = 4 then 800
  else 0

/-- The drop-interval formula `max(0.12, 0.7 - (level - 1) * 0.05)`. -/
def drop_interval_for (level : Int) : ℚ :=
  max (12 / 100) (7 / 10 - ((level : ℚ) - 1) * (5 / 100))

/-- The spawn anchor `x = WIDTH // 2 - 2`. -/
def spawn_px : Int := (WIDTH : Int) / 2 - 2

mutual

/-- `TetrisGame.spawn_piece` with the random source injected as a stream of
kinds (one consumed per `_random_piece` call): promote `next` to `current`,
draw a fresh `next`, place at `(spawn_px, 0)`, and fall back to `game_over`
when the placement is invalid.  An exhausted stream returns the state as is
(never reached with a long enough stream). -/
def spawn_piece : GameState → List Kind → GameState
  | g, [] => g
  | g, k :: ks =>
    let g1 := { g with current := g.next_piece, next_piece := mk_piece k,
                       px := spawn_px, py := 0 }
    if valid_position g1.grid g1.current g1.px g1.py g1.current.rot then g1
    else game_over g1 ks

/-- `TetrisGame.game_over`: reset the grid to empty, zero score and lines,
reset level to 1, draw a fresh `next` piece, and spawn. -/
def game_over : GameState → List Kind → GameState
  | g, [] => { g with grid := empty_grid, score := 0, lines := 0, level := 1 }
  | g, k :: ks =>
    spawn_piece
      { g with grid := empty_grid, score := 0, lines := 0, level := 1,
               next_piece := mk_piece k } ks

end

/-- `TetrisGame.lock_piece`: merge the current piece, clear full lines,
update score / lines / level / drop interval, then spawn the next piece. -/
def lock_piece (g : GameState) (ks : List Kind) : GameState :=
  let grid1 := merge g.grid (shape_coords g.current g.current.rot g.px g.py)
  let res := clear_lines grid1
  let new_lines := g.lines + res.2
  let new_level := 1 + new_lines.fdiv 10
  spawn_piece
    { g with grid := res.1,
             score := g.score + score_table res.2,
             lines := new_lines,
             level := new_level,
             drop_interval := drop_interval_for new_level } ks

/-- `TetrisGame.step` with `time.time()` injected as `now`: when the effective
interval has elapsed, advance the piece one row or lock it, and record `now`
as the last drop time; otherwise do nothing. -/
def step (g : GameState) (now : ℚ) (ks : List Kind) : GameState :=
  if now - g.last_drop ≥ g.drop_interval * (if g.soft_drop then 2 / 10 else 1) then
    if valid_position g.grid g.current g.px (g.py + 1) g.current.rot then
      { g with py := g.py + 1, last_drop := now }
    else
      { lock_piece g ks with last_drop := now }
  else g

/-! ## Stealth state machine: theorems -/

/-- A concrete stealth state with the double-trigger window open while
hidden, as reached right after a first Enter press. -/
def hidden_window_state : StealthState :=
  { hidden := true, awaiting_double := true, last_enter_time := 0 }

/-- C4: Scenario B.  From the initial state, a trigger at t=0 emits `hide`
and leaves the state hidden with the window open; a second trigger at t=0.1
emits `panic`.  Alternatively a second trigger at t=0.6 emits `restore` and
leaves the state not hidden — also when a timer poll at t=0.5 ran in
between. -/
theorem c4_scenario_b :
    (handle_enter stealth_init 0).2 = StealthAction.hide ∧
    (handle_enter stealth_init 0).1.hidden = true ∧
    (handle_enter stealth_init 0).1.awaiting_double = true ∧
    (handle_enter (handle_enter stealth_init 0).1 (1 / 10)).2 = StealthAction.panic ∧
    (handle_enter (handle_enter stealth_init 0).1 (6 / 10)).2 = StealthAction.restore ∧
    (handle_enter (handle_enter stealth_init 0).1 (6 / 10)).1.hidden = false ∧
    (handle_enter (check_timers (handle_enter stealth_init 0).1 (5 / 10)) (6 / 10)).2 =
      StealthAction.restore ∧
    (handle_enter (check_timers (handle_enter stealth_init 0).1 (5 / 10)) (6 / 10)).1.hidden =
      false := by
  norm_num [handle_enter, check_timers, stealth_init, DOUBLE_WINDOW]

/-- C2 counterexample: from the hidden state with the window open, a trigger
within 0.4s emits `panic` but leaves `hidden = true`, contradicting the
claim that the machine ends in the non-hidden (`Visible`) state. -/
theorem c2_counterexample :
    (handle_enter hidden_window_state (1 / 10)).2 = StealthAction.panic ∧
    (handle_enter hidden_window_state (1 / 10)).1.hidden = true := by
  norm_num [handle_enter, hidden_window_state, DOUBLE_WINDOW]

/-- C2 amended: with the window open and `now - lastTrigger <= 0.4`, the
trigger consumes the window and emits `panic`, but leaves the `hidden` flag
unchanged (so the machine stays hidden when triggered from the hidden
state). -/
theorem c2_panic_consumes_window (s : StealthState) (now : ℚ)
    (ha : s.awaiting_double = true)
    (ht : now - s.last_enter_time ≤ DOUBLE_WINDOW) :
    (handle_enter s now).2 = StealthAction.panic ∧
    (handle_enter s now).1.awaiting_double = false ∧
    (handle_enter s now).1.hidden = s.hidden := by
  unfold handle_enter
  cases hh : s.hidden <;> simp [hh, ha, ht]

/-- Witness for `c2_panic_consumes_window` at a concrete state and time. -/
theorem c2_panic_consumes_window_witness :
    hidden_window_state.awaiting_double = true ∧
    (2 / 10 : ℚ) - hidden_window_state.last_enter_time ≤ DOUBLE_WINDOW ∧
    ((handle_enter hidden_window_state (2 / 10)).2 = StealthAction.panic ∧
      (handle_enter hidden_window_state (2 / 10)).1.awaiting_double = false ∧
      (handle_enter hidden_window_state (2 / 10)).1.hidden = hidden_window_state.hidden) :=
  ⟨by decide, by norm_num [hidden_window_state, DOUBLE_WINDOW],
    c2_panic_consumes_window hidden_window_state (2 / 10) (by decide)
      (by norm_num [hidden_window_state, DOUBLE_WINDOW])⟩

/-- One event preserves the invariant `awaiting_double → hidden`. -/
theorem stealth_inv_step (s : StealthState) (e : StealthEvent)
    (h : s.awaiting_double = true → s.hidden = true) :
    (stealth_apply s e).awaiting_double = true → (stealth_apply s e).hidden = true := by
  cases e with
  | trigger now =>
    simp only [stealth_apply, handle_enter]
    split_ifs <;> simp_all
  | tick now =>
    simp only [stealth_apply, check_timers]
    split_ifs <;> simp_all

/-- Any event sequence preserves the invariant `awaiting_double → hidden`. -/
theorem stealth_foldl_inv (evs : List StealthEvent) :
    ∀ s : StealthState, (s.awaiting_double = true → s.hidden = true) →
      (evs.foldl stealth_apply s).awaiting_double = true →
        (evs.foldl stealth_apply s).hidden = true := by
  induction evs with
  | nil => intro s h; simpa using h
  | cons e rest ih =>
    intro s h
    simpa using ih (stealth_apply s e) (stealth_inv_step s e h)

/-- C10: in every state reachable from the initial stealth state by
`handle_enter` and `check_timers` calls, an open double-trigger window
implies the machine is hidden; hence the not-hidden `panic` branch of
`handle_enter` (the one without the 0.4s window-time check, whose guard is
`hidden = false` and `awaiting_double = true`) is never executed. -/
theorem c10_awaiting_implies_hidden (evs : List StealthEvent)
    (h : (stealth_run evs).awaiting_double = true) :
    (stealth_run evs).hidden = true :=
  stealth_foldl_inv evs stealth_init (by simp [stealth_init]) h

/-- Witness for `c10_awaiting_implies_hidden` on a one-event run whose final
state has the window open. -/
theorem c10_awaiting_implies_hidden_witness :
    (stealth_run [StealthEvent.trigger 0]).awaiting_double = true ∧
    (stealth_run [StealthEvent.trigger 0]).hidden = true :=
  ⟨by decide, c10_awaiting_implies_hidden [StealthEvent.trigger 0] (by decide)⟩

/-! ## Game engine: theorems -/

/-- A concrete game state right after construction (empty grid, a T piece at
the spawn anchor). -/
def demo_state : GameState :=
  { grid := empty_grid, score := 0, level := 1, lines := 0,
    current := mk_piece Kind.T, next_piece := mk_piece Kind.O,
    px := 3, py := 0, drop_interval := 7 / 10, last_drop := 0,
    lock_delay := 5 / 10, soft_drop := false }

/-- Iterated application of `rotate`. -/
def rotates (g : GameState) : Nat → GameState
  | 0 => g
  | n + 1 => rotates (rotate g) n

theorem rotate_kind (g : GameState) : (rotate g).current.kind = g.current.kind := by
  simp only [rotate]
  split <;> rfl

theorem rotate_rot_lt (g : GameState)
    (h : g.current.rot < (SHAPES g.current.kind).length) :
    (rotate g).current.rot < (SHAPES (rotate g).current.kind).length := by
  simp only [rotate]
  split
  · exact Nat.mod_lt _ (Nat.lt_of_le_of_lt (Nat.zero_le _) h)
  · exact h

/-- The rotation-index bound is preserved by any number of `rotate` calls. -/
theorem rotates_inv (n : Nat) : ∀ g : GameState,
    g.current.rot < (SHAPES g.current.kind).length →
      (rotates g n).current.kind = g.current.kind ∧
        (rotates g n).current.rot < (SHAPES g.current.kind).length := by
  induction n with
  | zero => exact fun g h => ⟨rfl, h⟩
  | succ n ih =>
    intro g h
    obtain ⟨hk', hr'⟩ := ih (rotate g) (rotate_rot_lt g h)
    rw [rotate_kind g] at hk' hr'
    exact ⟨by simpa only [rotates] using hk', by simpa only [rotates] using hr'⟩

/-- Every kind has at least one rotation state. -/
theorem shapes_length_pos (k : Kind) : 0 < (SHAPES k).length := by
  cases k <;> decide

/-- C8: a freshly created piece starts at rotation index 0, and after any
number of `rotate` calls the piece keeps its kind and its rotation index
stays below that kind's rotation-state count (hence within
`[0, stateCount)`). -/
theorem c8_rotation_index_in_range (g : GameState) (k : Kind) (n : Nat)
    (h : g.current = mk_piece k) :
    g.current.rot = 0 ∧
    (rotates g n).current.kind = k ∧
    (rotates g n).current.rot < (SHAPES k).length := by
  have h0 : g.current.rot < (SHAPES g.current.kind).length := by
    rw [h]; exact shapes_length_pos k
  obtain ⟨hk, hr⟩ := rotates_inv n g h0
  rw [h] at hk hr
  exact ⟨by rw [h]; rfl, hk, hr⟩

/-- Witness for `c8_rotation_index_in_range`: five rotations of the demo
state's T piece. -/
theorem c8_rotation_index_in_range_witness :
    demo_state.current = mk_piece Kind.T ∧
    (demo_state.current.rot = 0 ∧
      (rotates demo_state 5).current.kind = Kind.T ∧
      (rotates demo_state 5).current.rot < (SHAPES Kind.T).length) :=
  ⟨by decide, c8_rotation_index_in_range demo_state Kind.T 5 (by decide)⟩

/-- C9: when the candidate placement is invalid, `move` and `rotate` return
the state unchanged (no field is modified, no error is signalled). -/
theorem c9_invalid_request_rejected (g : GameState) (dx : Int) :
    (valid_position g.grid g.current (g.px + dx) g.py g.current.rot = false →
      move g dx = g) ∧
    (valid_position g.grid g.current g.px g.py
        ((g.current.rot + 1) % (SHAPES g.current.kind).length) = false →
      rotate g = g) := by
  constructor
  · intro hm
    unfold move
    simp [hm]
  · intro hr
    unfold rotate
    simp [hr]

/-- A game state with the T piece against the left wall and at the bottom,
where both moving left and rotating are invalid. -/
def wall_state : GameState :=
  { demo_state with px := 0, py := 18 }

/-- Witness for `c9_invalid_request_rejected`: at `wall_state`, moving left
is out of bounds and the rotated placement leaves the board. -/
theorem c9_invalid_request_rejected_witness :
    valid_position wall_state.grid wall_state.current (wall_state.px + (-1))
        wall_state.py wall_state.current.rot = false ∧
    valid_position wall_state.grid wall_state.current wall_state.px wall_state.py
        ((wall_state.current.rot + 1) % (SHAPES wall_state.current.kind).length) = false ∧
    move wall_state (-1) = wall_state ∧ rotate wall_state = wall_state :=
  ⟨by decide, by decide,
    (c9_invalid_request_rejected wall_state (-1)).1 (by decide),
    (c9_invalid_request_rejected wall_state (-1)).2 (by decide)⟩

/-! ## Gravity scheduler timestamp (C1) -/

/-- C1 counterexample: at the freshly constructed state (`last_drop = 0`,
`drop_interval = 0.7`, soft drop off), a `step` sampled at `now = 0.1` — the
interval not yet elapsed — leaves `last_drop` at `0`, not at the sampled
`now`, refuting the claim that the timestamp is reset on every call. -/
theorem c1_counterexample :
    (step demo_state (1 / 10) []).last_drop ≠ (1 / 10 : ℚ) := by
  have hc : ¬ ((1 / 10 : ℚ) - demo_state.last_drop ≥
      demo_state.drop_interval * (if demo_state.soft_drop then 2 / 10 else 1)) := by
    norm_num [demo_state]
  unfold step
  rw [if_neg hc]
  norm_num [demo_state]

/-- C1 amended: `step` resets `last_drop` to the sampled `now` exactly when
the effective interval has elapsed (whether the piece advanced or locked);
when it has not elapsed, `step` returns the state unchanged, `last_drop`
included. -/
theorem c1_last_drop_reset (g : GameState) (now : ℚ) (ks : List Kind) :
    (now - g.last_drop ≥ g.drop_interval * (if g.soft_drop then 2 / 10 else 1) →
      (step g now ks).last_drop = now) ∧
    (¬ (now - g.last_drop ≥ g.drop_interval * (if g.soft_drop then 2 / 10 else 1)) →
      step g now ks = g) := by
  constructor
  · intro h
    unfold step
    rw [if_pos h]
    split <;> rfl
  · intro h
    unfold step
    rw [if_neg h]

/-- Witness for `c1_last_drop_reset`: both the elapsed case (at `now = 1`)
and the not-elapsed case (at `now = 0.1`) on the demo state. -/
theorem c1_last_drop_reset_witness :
    ((1 : ℚ) - demo_state.last_drop ≥
        demo_state.drop_interval * (if demo_state.soft_drop then 2 / 10 else 1) ∧
      (step demo_state 1 []).last_drop = 1) ∧
    (¬ ((1 / 10 : ℚ) - demo_state.last_drop ≥
        demo_state.drop_interval * (if demo_state.soft_drop then 2 / 10 else 1)) ∧
      step demo_state (1 / 10) [] = demo_state) :=
  ⟨⟨by norm_num [demo_state],
    (c1_last_drop_reset demo_state 1 []).1 (by norm_num [demo_state])⟩,
   ⟨by norm_num [demo_state],
    (c1_last_drop_reset demo_state (1 / 10) []).2 (by norm_num [demo_state])⟩⟩

/-! ## Drop interval and game over (C3) -/

/-- Neither `spawn_piece` nor `game_over` ever touches the drop interval. -/
theorem spawn_game_over_drop_interval (ks : List Kind) :
    ∀ g : GameState,
      (spawn_piece g ks).drop_interval = g.drop_interval ∧
        (game_over g ks).drop_interval = g.drop_interval := by
  induction ks with
  | nil => exact fun g => ⟨rfl, rfl⟩
  | cons k ks ih =>
    intro g
    constructor
    · simp only [spawn_piece]
      split
      · rfl
      · exact (ih _).2
    · simp only [game_over]
      exact (ih _).1

/-- `spawn_piece` keeps a level of 1, and `game_over` always ends with a
level of 1. -/
theorem spawn_game_over_level (ks : List Kind) :
    ∀ g : GameState,
      (g.level = 1 → (spawn_piece g ks).level = 1) ∧
        (game_over g ks).level = 1 := by
  induction ks with
  | nil => exact fun g => ⟨fun h => h, rfl⟩
  | cons k ks ih =>
    intro g
    constructor
    · intro h
      simp only [spawn_piece]
      split
      · exact h
      · exact (ih _).2
    · simp only [game_over]
      exact (ih _).1 rfl

/-- The grid obtained by a lock: current piece merged, full lines cleared. -/
def lock_grid (g : GameState) : Grid :=
  (clear_lines (merge g.grid (shape_coords g.current g.current.rot g.px g.py))).1

/-- The number of rows a lock of the current piece clears. -/
def lock_cleared (g : GameState) : Int :=
  (clear_lines (merge g.grid (shape_coords g.current g.current.rot g.px g.py))).2

/-- C3 amended: `lock_piece` derives the drop interval as
`max(0.12, 0.7 - (level - 1) * 0.05)` from the level value it computes
(`1 + (lines + cleared) fdiv 10`), but `game_over` resets the level to 1
without recomputing the interval, so immediately after a game-over reset the
interval keeps its previous value instead of returning to 0.7. -/
theorem c3_drop_interval_derivation (g : GameState) (ks : List Kind) :
    (game_over g ks).level = 1 ∧
    (game_over g ks).drop_interval = g.drop_interval ∧
    (lock_piece g ks).drop_interval =
      drop_interval_for (1 + (g.lines + lock_cleared g).fdiv 10) := by
  refine ⟨(spawn_game_over_level ks g).2, (spawn_game_over_drop_interval ks g).2, ?_⟩
  simp only [lock_piece, lock_cleared]
  rw [(spawn_game_over_drop_interval ks _).1]

/-- A game state at level 5, whose drop interval 0.5 is the one the level
formula yields for level 5. -/
def c3_state : GameState :=
  { demo_state with level := 5, drop_interval := 1 / 2 }

/-- C3 counterexample: a game-over reset from level 5 ends at level 1 but
with the drop interval still 0.5, not 0.7. -/
theorem c3_counterexample :
    drop_interval_for 1 = 7 / 10 ∧
    (game_over c3_state [Kind.O, Kind.O]).level = 1 ∧
    (game_over c3_state [Kind.O, Kind.O]).drop_interval ≠ 7 / 10 := by
  refine ⟨?_, (spawn_game_over_level _ _).2, ?_⟩
  · rw [drop_interval_for]
    norm_num
  · rw [(spawn_game_over_drop_interval _ _).2]
    norm_num [c3_state, demo_state]

/-! ## Lock scoring and leveling (C7) -/

/-- C7 amended: when the spawn performed at the end of `lock_piece` places
the next piece validly, a lock that clears `c` rows adds the table value
for `c` to the score, adds `c` to the cleared-lines count, and recomputes
the level as `1 + floor(lines / 10)` (so totals of 0, 10 and 25 lines give
levels 1, 2 and 3); when that spawn collides, the lock instead ends in a
game-over reset that zeroes score and lines, so the final score is not
independent of the board contents. -/
theorem c7_lock_updates_stats (g : GameState) (k : Kind) (ks : List Kind)
    (hs : valid_position (lock_grid g) g.next_piece spawn_px 0 g.next_piece.rot = true) :
    (lock_piece g (k :: ks)).score = g.score + score_table (lock_cleared g) ∧
    (lock_piece g (k :: ks)).lines = g.lines + lock_cleared g ∧
    (lock_piece g (k :: ks)).level = 1 + (g.lines + lock_cleared g).fdiv 10 ∧
    (g.lines + lock_cleared g = 0 → (lock_piece g (k :: ks)).level = 1) ∧
    (g.lines + lock_cleared g = 10 → (lock_piece g (k :: ks)).level = 2) ∧
    (g.lines + lock_cleared g = 25 → (lock_piece g (k :: ks)).level = 3) := by
  simp only [lock_piece, spawn_piece, lock_grid, lock_cleared] at hs ⊢
  rw [if_pos hs]
  refine ⟨rfl, rfl, rfl, ?_, ?_, ?_⟩ <;> intro h <;> rw [h]
  · exact (show (1 : Int) + Int.fdiv 0 10 = 1 by decide)
  · exact (show (1 : Int) + Int.fdiv 10 10 = 2 by decide)
  · exact (show (1 : Int) + Int.fdiv 25 10 = 3 by decide)

/-- A board whose bottom row is full except for the two columns the active
O piece fills, so that locking clears exactly one row. -/
def near_clear_grid : Grid :=
  List.replicate 19 empty_row ++ [[1,1,1,1,0,0,1,1,1,1]]

/-- A state about to lock an O piece into `near_clear_grid`, with 9 lines
already cleared so the lock reaches 10 lines and level 2. -/
def near_clear_state : GameState :=
  { demo_state with grid := near_clear_grid, current := mk_piece Kind.O,
                    px := 3, py := 18, lines := 9, score := 50 }

/-- Witness for `c7_lock_updates_stats`: locking the O piece clears one row,
adds 100 points, reaches 10 lines and level 2. -/
theorem c7_lock_updates_stats_witness :
    valid_position (lock_grid near_clear_state) near_clear_state.next_piece
        spawn_px 0 near_clear_state.next_piece.rot = true ∧
    ((lock_piece near_clear_state [Kind.I, Kind.I]).score =
        near_clear_state.score + score_table (lock_cleared near_clear_state) ∧
      (lock_piece near_clear_state [Kind.I, Kind.I]).lines =
        near_clear_state.lines + lock_cleared near_clear_state ∧
      (lock_piece near_clear_state [Kind.I, Kind.I]).level =
        1 + (near_clear_state.lines + lock_cleared near_clear_state).fdiv 10 ∧
      (near_clear_state.lines + lock_cleared near_clear_state = 0 →
        (lock_piece near_clear_state [Kind.I, Kind.I]).level = 1) ∧
      (near_clear_state.lines + lock_cleared near_clear_state = 10 →
        (lock_piece near_clear_state [Kind.I, Kind.I]).level = 2) ∧
      (near_clear_state.lines + lock_cleared near_clear_state = 25 →
        (lock_piece near_clear_state [Kind.I, Kind.I]).level = 3)) :=
  ⟨by decide, c7_lock_updates_stats near_clear_state Kind.I [Kind.I] (by decide)⟩

/-- A board with one occupied cell at `(x, y) = (4, 0)`, blocking the spawn
cell of the next O piece, while the active O piece sits at the bottom. -/
def blocked_spawn_state : GameState :=
  { demo_state with grid := ([0,0,0,0,1,0,0,0,0,0] : List Nat) :: List.replicate 19 empty_row,
                    score := 100, current := mk_piece Kind.O, px := 0, py := 18 }

/-- C7 counterexample: this lock clears 0 rows, so by the table the score
should stay 100; but the spawn at the end of `lock_piece` collides, the
game-over reset runs, and the final score is 0 — the score after a lock is
not the old score plus the table value, and does depend on the board
contents. -/
theorem c7_counterexample :
    lock_cleared blocked_spawn_state = 0 ∧
    blocked_spawn_state.score + score_table 0 = 100 ∧
    (lock_piece blocked_spawn_state [Kind.I, Kind.I, Kind.I]).score = 0 :=
  ⟨by decide, by decide, by decide⟩

/-! ## Line clearing (C6) -/

/-- A full row: no empty cell. -/
def is_full (row : List Nat) : Bool := row.all (fun cell => !(cell == 0))

theorem is_full_eq_not_incomplete (row : List Nat) :
    is_full row = !(is_incomplete row) := by
  simp [is_full, is_incomplete, List.all_eq_not_any_not]

/-- Every row is counted either as full or as incomplete. -/
theorem countP_full_add_incomplete (grid : Grid) :
    grid.countP is_full + grid.countP is_incomplete = grid.length := by
  induction grid with
  | nil => rfl
  | cons row rs ih =>
    rw [List.countP_cons, List.countP_cons, is_full_eq_not_incomplete]
    cases h : is_incomplete row <;> simp [h] <;> omega

/-- C6: on a grid of HEIGHT rows, `clear_lines` returns the number of full
rows (those with no empty cell), replaces the grid by that many empty rows
on top of the incomplete rows in their original order, and preserves the
total row count. -/
theorem c6_clear_lines_spec (grid : Grid) (hg : grid.length = HEIGHT) :
    (clear_lines grid).2 = (grid.countP is_full : Int) ∧
    (clear_lines grid).1 =
      List.replicate (grid.countP is_full) empty_row ++ grid.filter is_incomplete ∧
    (clear_lines grid).1.length = HEIGHT := by
  have hfl : (grid.filter is_incomplete).length = grid.countP is_incomplete :=
    (List.countP_eq_length_filter is_incomplete grid).symm
  have hsum := countP_full_add_incomplete grid
  have h2 : (clear_lines grid).2 = (grid.countP is_full : Int) := by
    simp only [clear_lines, hfl]
    omega
  refine ⟨h2, ?_, ?_⟩
  · have htn : ((HEIGHT : Int) - (grid.filter is_incomplete).length).toNat =
        grid.countP is_full := by
      have : ((HEIGHT : Int) - (grid.filter is_incomplete).length) =
          (grid.countP is_full : Int) := h2
      rw [this, Int.toNat_ofNat]
    simp only [clear_lines]
    rw [htn]
  · simp only [clear_lines, List.length_append, List.length_replicate, hfl]
    omega

/-- A board matching Scenario C: the bottom row fully occupied, every other
row partially occupied. -/
def scenario_c_grid : Grid :=
  List.replicate 19 ([1,0,0,0,0,0,0,0,0,0] : List Nat) ++ [List.replicate 10 1]

/-- Witness for `c6_clear_lines_spec` on the Scenario C board. -/
theorem c6_clear_lines_spec_witness :
    scenario_c_grid.length = HEIGHT ∧
    ((clear_lines scenario_c_grid).2 = (scenario_c_grid.countP is_full : Int) ∧
      (clear_lines scenario_c_grid).1 =
        List.replicate (scenario_c_grid.countP is_full) empty_row ++
          scenario_c_grid.filter is_incomplete ∧
      (clear_lines scenario_c_grid).1.length = HEIGHT) ∧
    (clear_lines scenario_c_grid).2 = 1 :=
  ⟨by decide, c6_clear_lines_spec scenario_c_grid (by decide), by decide⟩

/-! ## Merging a locked piece (C5) -/

/-- Reading cell `(x, y)` of the occupancy grid (0 when out of range). -/
def cell_at (grid : Grid) (x y : Nat) : Nat := (grid.getD y []).getD x 0

theorem getD_set_self {α : Type} (l : List α) (i : Nat) (v d : α)
    (h : i < l.length) : (l.set i v).getD i d = v := by
  rw [List.getD_eq_getElem?_getD, List.getElem?_set, if_pos rfl, if_pos h]
  rfl

theorem getD_set_other {α : Type} (l : List α) (i j : Nat) (v d : α)
    (h : i ≠ j) : (l.set i v).getD j d = l.getD j d := by
  rw [List.getD_eq_getElem?_getD, List.getElem?_set, if_neg h,
    ← List.getD_eq_getElem?_getD]

theorem getD_mem_of_lt {α : Type} (l : List α) (i : Nat) (d : α)
    (h : i < l.length) : l.getD i d ∈ l := by
  rw [List.getD_eq_getElem?_getD, List.getElem?_eq_getElem h]
  exact List.getElem_mem h

theorem set_cell_length (grid : Grid) (x y : Int) :
    (set_cell grid x y).length = grid.length := by
  unfold set_cell
  split
  · exact List.length_set grid y.toNat _
  · rfl

theorem set_cell_rows (grid : Grid) (x y : Int) (hlen : grid.length = HEIGHT)
    (h : ∀ row ∈ grid, row.length = WIDTH) :
    ∀ row ∈ set_cell grid x y, row.length = WIDTH := by
  unfold set_cell
  split
  case isTrue hb =>
    intro row hrow
    rcases List.mem_or_eq_of_mem_set hrow with hmem | heq
    · exact h row hmem
    · have hyl : y.toNat < grid.length := by omega
      rw [heq, List.length_set]
      exact h _ (getD_mem_of_lt grid y.toNat [] hyl)
  case isFalse hb => exact h

theorem cell_at_set_cell_self (grid : Grid) (x y : Int)
    (hlen : grid.length = HEIGHT) (hrows : ∀ row ∈ grid, row.length = WIDTH)
    (hx0 : 0 ≤ x) (hx : x < (WIDTH : Int)) (hy0 : 0 ≤ y) (hy : y < (HEIGHT : Int)) :
    cell_at (set_cell grid x y) x.toNat y.toNat = 1 := by
  unfold set_cell
  rw [if_pos ⟨hy0, hy, hx0, hx⟩]
  unfold cell_at
  have hyl : y.toNat < grid.length := by omega
  rw [getD_set_self grid y.toNat _ [] hyl]
  have hxw : x.toNat < (grid.getD y.toNat []).length := by
    rw [hrows _ (getD_mem_of_lt grid y.toNat [] hyl)]
    omega
  exact getD_set_self _ x.toNat 1 0 hxw

theorem cell_at_set_cell_other (grid : Grid) (a b x y : Int)
    (hlen : grid.length = HEIGHT)
    (hne : ¬ (a = x ∧ b = y))
    (hx0 : 0 ≤ x) (hy0 : 0 ≤ y) (hy : y < (HEIGHT : Int)) :
    cell_at (set_cell grid a b) x.toNat y.toNat = cell_at grid x.toNat y.toNat := by
  unfold set_cell
  split
  case isTrue hb =>
    obtain ⟨hb0, hbH, ha0, haW⟩ := hb
    unfold cell_at
    have hyl : y.toNat < grid.length := by omega
    by_cases hby : b = y
    · have hax : a ≠ x := fun h => hne ⟨h, hby⟩
      have hbn : b.toNat = y.toNat := by omega
      rw [hbn, getD_set_self grid y.toNat _ [] hyl]
      exact getD_set_other _ a.toNat x.toNat 1 0 (by omega)
    · have hbn : b.toNat ≠ y.toNat := by omega
      rw [getD_set_other grid b.toNat y.toNat _ [] hbn]
  case isFalse hb => rfl

/-- C5: merging a list of cells marks exactly those cells occupied — at
every in-bounds board position, the merged grid holds 1 if the position is
one of the piece's cells and the previous value otherwise.  The theorem
carries no validity hypothesis at all on the cells or on the prior
occupancy: the merge performs no validity re-check and proceeds even over
already-occupied cells. -/
theorem c5_merge_marks_cells (cells : List (Int × Int)) :
    ∀ grid : Grid, grid.length = HEIGHT → (∀ row ∈ grid, row.length = WIDTH) →
      ∀ x y : Int, 0 ≤ x → x < (WIDTH : Int) → 0 ≤ y → y < (HEIGHT : Int) →
        cell_at (merge grid cells) x.toNat y.toNat =
          if (x, y) ∈ cells then 1 else cell_at grid x.toNat y.toNat := by
  induction cells with
  | nil =>
    intro grid _ _ x y _ _ _ _
    simp [merge]
  | cons c rest ih =>
    intro grid hlen hrows x y hx0 hx hy0 hy
    have hlen' : (set_cell grid c.1 c.2).length = HEIGHT := by
      rw [set_cell_length, hlen]
    have hrows' := set_cell_rows grid c.1 c.2 hlen hrows
    have hme : merge grid (c :: rest) = merge (set_cell grid c.1 c.2) rest := rfl
    rw [hme, ih _ hlen' hrows' x y hx0 hx hy0 hy]
    by_cases hmem : (x, y) ∈ rest
    · rw [if_pos hmem, if_pos (List.mem_cons_of_mem c hmem)]
    · rw [if_neg hmem]
      by_cases hc : c = (x, y)
      · rw [if_pos (by rw [hc]; exact List.mem_cons_self _ _), hc]
        exact cell_at_set_cell_self grid x y hlen hrows hx0 hx hy0 hy
      · rw [if_neg (by
          intro hin
          rcases List.mem_cons.mp hin with heq | hin'
          · exact hc heq.symm
          · exact hmem hin')]
        refine cell_at_set_cell_other grid c.1 c.2 x y hlen ?_ hx0 hy0 hy
        rintro ⟨h1, h2⟩
        apply hc
        cases c
        simp_all

/-- Witness for `c5_merge_marks_cells`: merging the O piece's cells at the
spawn anchor into the empty grid marks cell `(4, 0)`. -/
theorem c5_merge_marks_cells_witness :
    empty_grid.length = HEIGHT ∧
    (∀ row ∈ empty_grid, row.length = WIDTH) ∧
    cell_at (merge empty_grid (shape_coords (mk_piece Kind.O) 0 3 0))
        (4 : Int).toNat (0 : Int).toNat =
      if ((4 : Int), (0 : Int)) ∈ shape_coords (mk_piece Kind.O) 0 3 0 then 1
      else cell_at empty_grid (4 : Int).toNat (0 : Int).toNat :=
  ⟨by decide, by decide,
    c5_merge_marks_cells (shape_coords (mk_piece Kind.O) 0 3 0) empty_grid
      (by decide) (by decide) 4 0 (by decide) (by decide) (by decide) (by decide)⟩

end AsyncStackTracer
